import Mathlib

/-!
Verification of the OpenViking HTTP server wiring (`openviking/server/app.py`):
the API-key authentication gate protecting the MCP mount path
(`protect_mcp_endpoint`) and the MCP capability-catalog builder
(`mcp_route_maps` construction in `create_app`).

The Python code is shallowly embedded: strings are `String` (lists of
characters, matching Python `str` indexing by code point), header lookups are
`Option String`, and the middleware becomes a pure function from the server
configuration and the request to a gate result (reject with a status and body,
or forward to the next handler).
-/

namespace OpenViking

/-- Truthiness of a Python `Optional[str]`: `None` and the empty string are
falsy, every other string is truthy. -/
def truthy : Option String → Bool
  | none => false
  | some s => if s = "" then false else true

/-- Python `s.startswith(p)`: `p` is a character-wise prefix of `s`. -/
def startswith (s p : String) : Bool :=
  p.data.isPrefixOf s.data

/-- Python `s[n:]`: drop the first `n` characters. -/
def str_drop (s : String) (n : Nat) : String :=
  ⟨s.data.drop n⟩

/-- Python `s.rstrip("/")`: remove every trailing slash character. -/
def rstrip_slashes (s : String) : String :=
  ⟨(s.data.reverse.dropWhile (fun c => c = '/')).reverse⟩

/-- Server configuration fields consumed by the gate and the catalog builder
(`ServerConfig` in `openviking/server/config.py`, seen through `app.py`):
`enable_mcp : bool`, `api_key : Optional[str]`, `mcp_path : str`. -/
structure ServerConfig where
  enable_mcp : Bool
  api_key : Option String
  mcp_path : String
deriving DecidableEq

/-- The request data the gate inspects: the URL path and the results of the
two header lookups `request.headers.get("X-API-Key")` and
`request.headers.get("Authorization")`. -/
structure Request where
  path : String
  x_api_key : Option String
  authorization : Option String
deriving DecidableEq

/-- Modelled from the spec: the error payload
`ErrorInfo(code=..., message=...)` of `openviking/server/models.py`,
whose source is not part of the excerpt; the spec fixes the failure envelope
to a code and a message. -/
structure ErrorInfo where
  code : String
  message : String
deriving DecidableEq

/-- Modelled from the spec: the structured JSON envelope
`Response(status="error", error=...)` of `openviking/server/models.py`,
whose source is not part of the excerpt. -/
structure ResponseBody where
  status : String
  error : ErrorInfo
deriving DecidableEq

/-- Outcome of the middleware on one request: either an early JSON response
with an HTTP status code, or forwarding the request unchanged to
`call_next`. -/
inductive GateResult where
  | reject (status : Nat) (body : ResponseBody)
  | forward
deriving DecidableEq

/-- The 401 body built at `app.py` lines 118-127:
status "error", code "UNAUTHENTICATED", message "Invalid API Key". -/
def unauthenticated_body : ResponseBody :=
  ⟨"error", ⟨"UNAUTHENTICATED", "Invalid API Key"⟩⟩

/-- Line 54 of `app.py`: `config.mcp_path.rstrip("/") or "/mcp"` — strip
trailing slashes, and fall back to "/mcp" when the result is empty. -/
def effective_mcp_path (p : String) : String :=
  let stripped := rstrip_slashes p
  if stripped = "" then "/mcp" else stripped

/-- Line 109 of `app.py`: the request path equals the mount path, or starts
with the mount path followed by "/". -/
def is_mcp_request (mcp_path path : String) : Bool :=
  (path = mcp_path : Bool) || startswith path (mcp_path ++ "/")

/-- Lines 111-115 of `app.py`: read `X-API-Key`; when it is falsy, read
`Authorization` (defaulting to "") and, when it starts with the literal
"Bearer ", take the rest of the value; otherwise keep the falsy
`X-API-Key` value. -/
def resolve_credential (r : Request) : Option String :=
  if truthy r.x_api_key then r.x_api_key
  else if startswith (r.authorization.getD "") "Bearer " then
    some (str_drop (r.authorization.getD "") 7)
  else r.x_api_key

/-- One scan of a list of character pairs, mirroring the loop of CPython
`hmac.compare_digest`: the first component counts the positions compared,
the second accumulates the number of mismatches. The recursion always
traverses the whole list — there is no early exit on a mismatch. -/
def cd_scan : List (Char × Char) → Nat × Nat
  | [] => (0, 0)
  | p :: ps =>
    let rest := cd_scan ps
    (rest.1 + 1, rest.2 + (if p.1 = p.2 then 0 else 1))

/-- Modelled from CPython semantics: `hmac.compare_digest(a, b)` as called at
line 117 of `app.py`, instrumented with the number of positions compared.
When the lengths agree it scans `a` against `b`; when they differ it scans
`b` against itself with the failure flag preset, still performing one
comparison per position of `b`. -/
def compare_digest_trace (a b : String) : Nat × Bool :=
  let left := if a.data.length = b.data.length then a.data else b.data
  let init : Nat := if a.data.length = b.data.length then 0 else 1
  let scan := cd_scan (left.zip b.data)
  (scan.1, init + scan.2 = 0)

/-- The boolean verdict of `hmac.compare_digest(a, b)`. -/
def compare_digest (a b : String) : Bool :=
  (compare_digest_trace a b).2

/-- Lines 108-129 of `app.py` with the mount path as an explicit argument:
when MCP is enabled, an API key is configured (truthy) and the path is under
the mount path, resolve the credential and reject with 401 unless it is
truthy and passes `hmac.compare_digest` against the configured key;
otherwise forward. -/
def protect_with_path (mcp_path : String) (cfg : ServerConfig) (r : Request) : GateResult :=
  if cfg.enable_mcp && truthy cfg.api_key && is_mcp_request mcp_path r.path then
    if !truthy (resolve_credential r)
        || !compare_digest ((resolve_credential r).getD "") (cfg.api_key.getD "") then
      .reject 401 unauthenticated_body
    else
      .forward
  else
    .forward

/-- The `protect_mcp_endpoint` middleware of `app.py`: the mount path is
computed once from the configuration (line 54) and used for every request. -/
def protect_mcp_endpoint (cfg : ServerConfig) (r : Request) : GateResult :=
  protect_with_path (effective_mcp_path cfg.mcp_path) cfg r

/-- MCP capability kinds (`fastmcp` `MCPType`) used by `app.py`. -/
inductive MCPType where
  | RESOURCE
  | TOOL
  | EXCLUDE
deriving DecidableEq

/-- A `fastmcp` `RouteMap` as constructed in `app.py`: an optional method
list, an optional tag set (always a singleton here, kept as a list), and a
capability kind. `none` means the library default — no restriction. -/
structure RouteMap where
  methods : Option (List String)
  tags : Option (List String)
  mcp_type : MCPType
deriving DecidableEq

/-- Line 178 of `app.py`: `RouteMap(methods=["GET"], tags={tag}, mcp_type=RESOURCE)`. -/
def resource_entry (tag : String) : RouteMap :=
  ⟨some ["GET"], some [tag], .RESOURCE⟩

/-- Lines 180-186 of `app.py`: `RouteMap(methods=["POST", "DELETE"], tags={tag}, mcp_type=TOOL)`. -/
def tool_entry (tag : String) : RouteMap :=
  ⟨some ["POST", "DELETE"], some [tag], .TOOL⟩

/-- Line 187 of `app.py`: `RouteMap(mcp_type=MCPType.EXCLUDE)` with default
methods and tags — no restriction. -/
def exclude_entry : RouteMap :=
  ⟨none, none, .EXCLUDE⟩

/-- Line 176 of `app.py`: the fixed tag tuple, in source order. -/
def mcp_tag_order : List String :=
  ["content", "filesystem", "resources", "search", "sessions", "relations"]

/-- Lines 175-187 of `app.py`: start from the empty list, append a RESOURCE
entry and a TOOL entry for each tag in order, then append the EXCLUDE
entry. -/
def build_route_maps (tags : List String) : List RouteMap :=
  (tags.foldl (fun acc tag => acc ++ [resource_entry tag, tool_entry tag]) [])
    ++ [exclude_entry]

/-- The catalog the application passes to `FastMCP.from_fastapi`. -/
def mcp_route_maps : List RouteMap :=
  build_route_maps mcp_tag_order

/-! ### Lemmas about the comparison primitive -/

/-- The scan performs exactly one comparison per list position. -/
theorem cd_scan_fst (ps : List (Char × Char)) : (cd_scan ps).1 = ps.length := by
  induction ps with
  | nil => rfl
  | cons p ps ih => simp [cd_scan, ih]

/-- The accumulated mismatch count of a scan over two equal-length lists is
zero exactly when the lists are equal. -/
theorem cd_scan_snd_eq_zero :
    ∀ (l₁ l₂ : List Char), l₁.length = l₂.length →
      (((cd_scan (l₁.zip l₂)).2 = 0) ↔ l₁ = l₂)
  | [], [], _ => by simp [cd_scan]
  | [], _ :: _, h => by simp at h
  | _ :: _, [], h => by simp at h
  | a :: l₁, b :: l₂, h => by
    have hlen : l₁.length = l₂.length := by simpa using h
    have ih := cd_scan_snd_eq_zero l₁ l₂ hlen
    have hz : (a :: l₁).zip (b :: l₂) = (a, b) :: l₁.zip l₂ := rfl
    rw [hz]
    simp only [cd_scan, Nat.add_eq_zero, List.cons.injEq]
    rw [ih]
    constructor
    · rintro ⟨h2, hite⟩
      refine ⟨?_, h2⟩
      by_contra hab
      simp [hab] at hite
    · rintro ⟨hab, h2⟩
      exact ⟨h2, by simp [hab]⟩

/-- The number of positions compared depends only on the second argument
(the configured secret), never on the contents of the first. -/
theorem compare_digest_trace_fst (a b : String) :
    (compare_digest_trace a b).1 = b.data.length := by
  by_cases h : a.data.length = b.data.length
  · simp only [compare_digest_trace, if_pos h]
    rw [cd_scan_fst, List.length_zip, h, Nat.min_self]
  · simp only [compare_digest_trace, if_neg h]
    rw [cd_scan_fst, List.length_zip, Nat.min_self]

/-- The verdict of the modelled `hmac.compare_digest` is string equality. -/
theorem compare_digest_eq_true_iff (a b : String) :
    compare_digest a b = true ↔ a = b := by
  have hdata : (a = b) ↔ a.data = b.data := by
    constructor
    · intro h; rw [h]
    · intro h; rcases a with ⟨la⟩; rcases b with ⟨lb⟩; exact congrArg String.mk h
  rw [hdata]
  by_cases h : a.data.length = b.data.length
  · simp only [compare_digest, compare_digest_trace, if_pos h]
    simpa using cd_scan_snd_eq_zero a.data b.data h
  · simp only [compare_digest, compare_digest_trace, if_neg h]
    simp only [decide_eq_true_eq]
    constructor
    · intro h0; omega
    · intro hl; exact absurd (congrArg List.length hl) h

/-! ### Lemmas about strings and credential resolution -/

/-- A string formed by appending starts with the appended head. -/
theorem startswith_append (p t : String) : startswith (p ++ t) p = true := by
  simp only [startswith, String.data_append, List.isPrefixOf_iff_prefix]
  exact List.prefix_append _ _

/-- Dropping 7 characters from a string that begins with the 7-character
literal "Bearer " leaves exactly the rest. -/
theorem str_drop_seven_bearer (t : String) : str_drop ("Bearer " ++ t) 7 = t := by
  have h7 : ("Bearer " : String).data.length = 7 := by decide
  rcases t with ⟨lt⟩
  simp only [str_drop, String.data_append]
  rw [List.drop_left' h7]

/-- A truthy `X-API-Key` header is taken as the credential directly. -/
theorem resolve_credential_truthy_key (r : Request) (k : String)
    (hx : r.x_api_key = some k) (hk : k ≠ "") :
    resolve_credential r = some k := by
  simp [resolve_credential, hx, truthy, hk]

/-- With a falsy `X-API-Key` header and an `Authorization` value of the form
"Bearer " followed by a token, the token becomes the credential. -/
theorem resolve_credential_fallback_bearer (r : Request) (tok : String)
    (hx : truthy r.x_api_key = false)
    (ha : r.authorization = some ("Bearer " ++ tok)) :
    resolve_credential r = some tok := by
  simp [resolve_credential, hx, ha, startswith_append, str_drop_seven_bearer]

/-- With a falsy `X-API-Key` header and an `Authorization` value that does not
start with "Bearer ", the credential stays the original header value. -/
theorem resolve_credential_fallback_none (r : Request)
    (hx : truthy r.x_api_key = false)
    (hb : startswith (r.authorization.getD "") "Bearer " = false) :
    resolve_credential r = r.x_api_key := by
  simp [resolve_credential, hx, hb]

/-! ### Lemmas about gate activation -/

/-- When any of the three gating conditions is false the middleware forwards. -/
theorem protect_with_path_inactive (p : String) (cfg : ServerConfig) (r : Request)
    (h : (cfg.enable_mcp && truthy cfg.api_key && is_mcp_request p r.path) = false) :
    protect_with_path p cfg r = GateResult.forward := by
  unfold protect_with_path
  simp [h]

/-- When all three gating conditions hold the middleware reduces to the
credential check. -/
theorem protect_with_path_active (p : String) (cfg : ServerConfig) (r : Request)
    (h : (cfg.enable_mcp && truthy cfg.api_key && is_mcp_request p r.path) = true) :
    protect_with_path p cfg r =
      if !truthy (resolve_credential r)
          || !compare_digest ((resolve_credential r).getD "") (cfg.api_key.getD "") then
        GateResult.reject 401 unauthenticated_body
      else GateResult.forward := by
  unfold protect_with_path
  rw [if_pos h]

/-- Active gate, no credential resolved: reject. -/
theorem protect_active_none (p : String) (cfg : ServerConfig) (r : Request) (key : String)
    (he : cfg.enable_mcp = true) (hk : cfg.api_key = some key) (hne : key ≠ "")
    (hp : is_mcp_request p r.path = true) (hres : resolve_credential r = none) :
    protect_with_path p cfg r = GateResult.reject 401 unauthenticated_body := by
  have hcond : (cfg.enable_mcp && truthy cfg.api_key && is_mcp_request p r.path) = true := by
    rw [he, hk, hp]
    simp [truthy, hne]
  rw [protect_with_path_active p cfg r hcond, hres]
  simp [truthy]

/-- Active gate, credential `c` resolved: the verdict is decided by whether
`c` is empty or differs from the configured key. -/
theorem protect_active_some (p : String) (cfg : ServerConfig) (r : Request) (key c : String)
    (he : cfg.enable_mcp = true) (hk : cfg.api_key = some key) (hne : key ≠ "")
    (hp : is_mcp_request p r.path = true) (hres : resolve_credential r = some c) :
    protect_with_path p cfg r =
      if c = "" ∨ c ≠ key then GateResult.reject 401 unauthenticated_body
      else GateResult.forward := by
  have hcond : (cfg.enable_mcp && truthy cfg.api_key && is_mcp_request p r.path) = true := by
    rw [he, hk, hp]
    simp [truthy, hne]
  rw [protect_with_path_active p cfg r hcond, hres, hk]
  by_cases hce : c = ""
  · subst hce
    simp [truthy]
  · by_cases hck : c = key
    · subst hck
      have hcd : compare_digest c c = true := (compare_digest_eq_true_iff c c).mpr rfl
      simp [truthy, hce, hcd]
    · have hcd : compare_digest c key = false := by
        cases hval : compare_digest c key
        · rfl
        · exact absurd ((compare_digest_eq_true_iff c key).mp hval) hck
      simp [truthy, hce, hck, hcd]

/-! ### Lemmas about the mount-path computation -/

/-- The stripped mount path never ends in a slash. -/
theorem rstrip_slashes_no_trailing (s : String) :
    (rstrip_slashes s).data.getLast? ≠ some '/' := by
  show ((s.data.reverse.dropWhile (fun c => c = '/')).reverse).getLast? ≠ some '/'
  rw [List.getLast?_reverse]
  intro hcontra
  have h := List.head?_dropWhile_not (fun c => (c = '/' : Bool)) s.data.reverse
  rw [hcontra] at h
  simp at h

/-- Stripping removes exactly a trailing run of slashes: the original string
is the stripped string followed by some number of slash characters. -/
theorem rstrip_slashes_spec (s : String) :
    ∃ n, s = rstrip_slashes s ++ String.mk (List.replicate n '/') := by
  rcases s with ⟨ls⟩
  refine ⟨(ls.reverse.takeWhile (fun c => (c = '/' : Bool))).length, ?_⟩
  have hsplit :
      ls.reverse.takeWhile (fun c => (c = '/' : Bool)) ++
        ls.reverse.dropWhile (fun c => (c = '/' : Bool)) = ls.reverse :=
    List.takeWhile_append_dropWhile _ _
  have hrep :
      (ls.reverse.takeWhile (fun c => (c = '/' : Bool))).reverse =
        List.replicate (ls.reverse.takeWhile (fun c => (c = '/' : Bool))).length '/' := by
    rw [List.eq_replicate_iff]
    refine ⟨by simp, ?_⟩
    intro b hb
    rw [List.mem_reverse] at hb
    have hpb := List.mem_takeWhile_imp hb
    simpa using hpb
  have hl : ls =
      (ls.reverse.dropWhile (fun c => (c = '/' : Bool))).reverse ++
        (ls.reverse.takeWhile (fun c => (c = '/' : Bool))).reverse := by
    have hrev := congrArg List.reverse hsplit
    rw [List.reverse_append, List.reverse_reverse] at hrev
    exact hrev.symm
  show String.mk ls =
    String.mk ((ls.reverse.dropWhile (fun c => c = '/')).reverse ++
      List.replicate (ls.reverse.takeWhile (fun c => (c = '/' : Bool))).length '/')
  rw [← hrep, ← hl]

/-- When stripping leaves nothing, the effective mount path is "/mcp". -/
theorem effective_mcp_path_of_empty (s : String) (h : rstrip_slashes s = "") :
    effective_mcp_path s = "/mcp" := by
  simp [effective_mcp_path, h]

/-- When stripping leaves a non-empty string, that string is the effective
mount path. -/
theorem effective_mcp_path_of_ne (s : String) (h : rstrip_slashes s ≠ "") :
    effective_mcp_path s = rstrip_slashes s := by
  simp [effective_mcp_path, h]

/-! ### A relational semantics of the catalog-building loop -/

/-- The catalog-building loop of `create_app` as a relation: processing no
tags yields just the EXCLUDE entry; processing `t :: ts` prepends the
RESOURCE and TOOL entries for `t` to the catalog for `ts`. -/
inductive BuildsCatalog : List String → List RouteMap → Prop where
  | nil : BuildsCatalog [] [exclude_entry]
  | cons (t : String) (ts : List String) (c : List RouteMap) :
      BuildsCatalog ts c → BuildsCatalog (t :: ts) (resource_entry t :: tool_entry t :: c)

/-- The loop accumulator can be factored out in front. -/
theorem foldl_emit_append (ts : List String) :
    ∀ acc : List RouteMap,
      ts.foldl (fun acc tag => acc ++ [resource_entry tag, tool_entry tag]) acc =
        acc ++ ts.foldl (fun acc tag => acc ++ [resource_entry tag, tool_entry tag]) [] := by
  induction ts with
  | nil => intro acc; simp
  | cons t ts ih =>
    intro acc
    rw [List.foldl_cons, List.foldl_cons, ih (acc ++ [resource_entry t, tool_entry t]),
      ih ([] ++ [resource_entry t, tool_entry t])]
    simp

/-- Unfolding one step of the catalog builder. -/
theorem build_route_maps_cons (t : String) (ts : List String) :
    build_route_maps (t :: ts) = resource_entry t :: tool_entry t :: build_route_maps ts := by
  unfold build_route_maps
  rw [List.foldl_cons, foldl_emit_append ts ([] ++ [resource_entry t, tool_entry t])]
  simp

/-- The functional builder realizes the loop relation. -/
theorem builds_catalog_build (ts : List String) : BuildsCatalog ts (build_route_maps ts) := by
  induction ts with
  | nil => exact BuildsCatalog.nil
  | cons t ts ih =>
    rw [build_route_maps_cons]
    exact BuildsCatalog.cons t ts _ ih

/-- The loop relation is deterministic: one tag list, one catalog. -/
theorem builds_catalog_deterministic :
    ∀ (ts : List String) (c₁ c₂ : List RouteMap),
      BuildsCatalog ts c₁ → BuildsCatalog ts c₂ → c₁ = c₂ := by
  intro ts c₁ c₂ h1 h2
  induction h1 generalizing c₂ with
  | nil => cases h2; rfl
  | cons t ts c h ih =>
    cases h2 with
    | cons _ _ cc hcc => rw [ih cc hcc]

/-- An empty-string `X-API-Key` and an absent one resolve to credentials with
the same truthiness and the same defaulted value. -/
theorem resolve_credential_drop_empty (r : Request) (hx : r.x_api_key = some "") :
    truthy (resolve_credential r) =
      truthy (resolve_credential ⟨r.path, none, r.authorization⟩) ∧
    (resolve_credential r).getD "" =
      (resolve_credential ⟨r.path, none, r.authorization⟩).getD "" := by
  have hxt : truthy r.x_api_key = false := by rw [hx]; rfl
  cases hb : startswith (r.authorization.getD "") "Bearer " with
  | false =>
    have h1 : resolve_credential r = some "" := by
      rw [resolve_credential_fallback_none r hxt hb, hx]
    have h2 : resolve_credential ⟨r.path, none, r.authorization⟩ = none := by
      simp [resolve_credential, truthy, hb]
    rw [h1, h2]
    exact ⟨rfl, rfl⟩
  | true =>
    have h1 : resolve_credential r = some (str_drop (r.authorization.getD "") 7) := by
      simp [resolve_credential, hxt, hb]
    have h2 : resolve_credential ⟨r.path, none, r.authorization⟩ =
        some (str_drop (r.authorization.getD "") 7) := by
      simp [resolve_credential, truthy, hb]
    rw [h1, h2]
    exact ⟨rfl, rfl⟩

/-! ### The claims -/

/-- C1: when MCP is enabled, a non-empty secret is configured and the request
path is the mount path or nested under it, a request whose resolved
credential is missing or differs from the secret receives the early JSON
response with HTTP status 401, body status "error", error code
"UNAUTHENTICATED" and message "Invalid API Key", and is not forwarded to any
downstream handler. -/
theorem c1_invalid_credential_rejected (cfg : ServerConfig) (r : Request) (key : String)
    (he : cfg.enable_mcp = true) (hk : cfg.api_key = some key) (hne : key ≠ "")
    (hp : is_mcp_request (effective_mcp_path cfg.mcp_path) r.path = true)
    (hc : ∀ c, resolve_credential r = some c → c ≠ key) :
    protect_mcp_endpoint cfg r =
      GateResult.reject 401 ⟨"error", ⟨"UNAUTHENTICATED", "Invalid API Key"⟩⟩ ∧
    protect_mcp_endpoint cfg r ≠ GateResult.forward := by
  have hmain : protect_mcp_endpoint cfg r = GateResult.reject 401 unauthenticated_body := by
    show protect_with_path (effective_mcp_path cfg.mcp_path) cfg r = _
    rcases hcr : resolve_credential r with _ | c
    · exact protect_active_none _ cfg r key he hk hne hp hcr
    · rw [protect_active_some _ cfg r key c he hk hne hp hcr,
        if_pos (Or.inr (hc c hcr))]
  refine ⟨hmain, ?_⟩
  rw [hmain]
  intro hcontra
  exact GateResult.noConfusion hcontra

/-- C1 witness: the concrete scenario of the spec — MCP enabled, secret
"test-key", a POST to "/mcp" carrying the wrong key is rejected with 401. -/
theorem c1_invalid_credential_rejected_witness :
    protect_mcp_endpoint ⟨true, some "test-key", "/mcp"⟩ ⟨"/mcp", some "bad", none⟩ =
      GateResult.reject 401 ⟨"error", ⟨"UNAUTHENTICATED", "Invalid API Key"⟩⟩ ∧
    protect_mcp_endpoint ⟨true, some "test-key", "/mcp"⟩ ⟨"/mcp", some "bad", none⟩ ≠
      GateResult.forward := by
  refine c1_invalid_credential_rejected ⟨true, some "test-key", "/mcp"⟩
    ⟨"/mcp", some "bad", none⟩ "test-key" rfl rfl (by decide) (by decide) ?_
  intro c hcc
  have hres : resolve_credential ⟨"/mcp", some "bad", none⟩ = some "bad" := by decide
  rw [hres] at hcc
  cases hcc
  decide

/-- C2: the gate intercepts (returns a non-forward result) only when MCP is
enabled, the configured secret is truthy and the path is under the protected
mount; whenever any of the three conditions fails, the request is forwarded
regardless of credential state. -/
theorem c2_gate_conditions (cfg : ServerConfig) (r : Request) :
    ((cfg.enable_mcp = false ∨ truthy cfg.api_key = false ∨
        is_mcp_request (effective_mcp_path cfg.mcp_path) r.path = false) →
      protect_mcp_endpoint cfg r = GateResult.forward) ∧
    (protect_mcp_endpoint cfg r ≠ GateResult.forward →
      cfg.enable_mcp = true ∧ truthy cfg.api_key = true ∧
        is_mcp_request (effective_mcp_path cfg.mcp_path) r.path = true) := by
  constructor
  · intro h
    show protect_with_path (effective_mcp_path cfg.mcp_path) cfg r = _
    apply protect_with_path_inactive
    rcases h with h | h | h <;> simp [h]
  · intro hnf
    by_contra hall
    apply hnf
    show protect_with_path (effective_mcp_path cfg.mcp_path) cfg r = _
    apply protect_with_path_inactive
    cases h1 : cfg.enable_mcp with
    | false => simp [h1]
    | true =>
      cases h2 : truthy cfg.api_key with
      | false => simp [h2]
      | true =>
        cases h3 : is_mcp_request (effective_mcp_path cfg.mcp_path) r.path with
        | false => simp [h3]
        | true => exact absurd ⟨h1, h2, h3⟩ hall

/-- C2 witness: with MCP disabled, a credential-less request to "/mcp" is
forwarded; off the protected path, a request is forwarded even though a
secret is configured and no credential is carried. -/
theorem c2_gate_conditions_witness :
    protect_mcp_endpoint ⟨false, some "test-key", "/mcp"⟩ ⟨"/mcp", none, none⟩ =
      GateResult.forward ∧
    protect_mcp_endpoint ⟨true, some "test-key", "/mcp"⟩ ⟨"/other", none, none⟩ =
      GateResult.forward :=
  ⟨(c2_gate_conditions ⟨false, some "test-key", "/mcp"⟩ ⟨"/mcp", none, none⟩).1
      (Or.inl rfl),
   (c2_gate_conditions ⟨true, some "test-key", "/mcp"⟩ ⟨"/other", none, none⟩).1
      (Or.inr (Or.inr (by decide)))⟩

/-- C3: a request to the protected path carrying the configured secret in the
`X-API-Key` header is forwarded, and so is a request carrying it as
`Authorization: Bearer` followed by the secret when `X-API-Key` is absent. -/
theorem c3_correct_secret_forwarded (cfg : ServerConfig) (r : Request) (key : String)
    (hk : cfg.api_key = some key)
    (hp : is_mcp_request (effective_mcp_path cfg.mcp_path) r.path = true) :
    (r.x_api_key = some key → protect_mcp_endpoint cfg r = GateResult.forward) ∧
    (r.x_api_key = none → r.authorization = some ("Bearer " ++ key) →
      protect_mcp_endpoint cfg r = GateResult.forward) := by
  by_cases hne : key = ""
  · have hin : protect_mcp_endpoint cfg r = GateResult.forward := by
      show protect_with_path (effective_mcp_path cfg.mcp_path) cfg r = _
      apply protect_with_path_inactive
      simp [hk, hne, truthy]
    exact ⟨fun _ => hin, fun _ _ => hin⟩
  · cases he : cfg.enable_mcp with
    | false =>
      have hin : protect_mcp_endpoint cfg r = GateResult.forward := by
        show protect_with_path (effective_mcp_path cfg.mcp_path) cfg r = _
        apply protect_with_path_inactive
        simp [he]
      exact ⟨fun _ => hin, fun _ _ => hin⟩
    | true =>
      have hnot : ¬(key = "" ∨ key ≠ key) := by
        rintro (h1 | h2)
        · exact hne h1
        · exact h2 rfl
      constructor
      · intro hx
        have hres : resolve_credential r = some key :=
          resolve_credential_truthy_key r key hx hne
        show protect_with_path (effective_mcp_path cfg.mcp_path) cfg r = _
        rw [protect_active_some _ cfg r key key he hk hne hp hres, if_neg hnot]
      · intro hx ha
        have hxt : truthy r.x_api_key = false := by rw [hx]; rfl
        have hres : resolve_credential r = some key :=
          resolve_credential_fallback_bearer r key hxt ha
        show protect_with_path (effective_mcp_path cfg.mcp_path) cfg r = _
        rw [protect_active_some _ cfg r key key he hk hne hp hres, if_neg hnot]

/-- C3 witness: "test-key" presented via `X-API-Key`, and via
`Authorization: Bearer test-key` without `X-API-Key`, both forward. -/
theorem c3_correct_secret_forwarded_witness :
    protect_mcp_endpoint ⟨true, some "test-key", "/mcp"⟩ ⟨"/mcp/", some "test-key", none⟩ =
      GateResult.forward ∧
    protect_mcp_endpoint ⟨true, some "test-key", "/mcp"⟩
      ⟨"/mcp/", none, some "Bearer test-key"⟩ = GateResult.forward :=
  ⟨(c3_correct_secret_forwarded ⟨true, some "test-key", "/mcp"⟩
      ⟨"/mcp/", some "test-key", none⟩ "test-key" rfl (by decide)).1 rfl,
   (c3_correct_secret_forwarded ⟨true, some "test-key", "/mcp"⟩
      ⟨"/mcp/", none, some "Bearer test-key"⟩ "test-key" rfl (by decide)).2 rfl (by decide)⟩

/-- C4: credential resolution consults `X-API-Key` first; only when that
header is falsy does it fall back to `Authorization`, stripping exactly the
7-character literal "Bearer " (case-sensitively, with no trimming), and an
`Authorization` value not starting with exactly "Bearer " yields no truthy
credential. -/
theorem c4_credential_resolution_order (r : Request) :
    (∀ k, r.x_api_key = some k → k ≠ "" → resolve_credential r = some k) ∧
    (truthy r.x_api_key = false →
      (startswith (r.authorization.getD "") "Bearer " = true →
        resolve_credential r = some (str_drop (r.authorization.getD "") 7)) ∧
      (startswith (r.authorization.getD "") "Bearer " = false →
        truthy (resolve_credential r) = false) ∧
      (∀ tok, r.authorization = some ("Bearer " ++ tok) →
        resolve_credential r = some tok)) := by
  constructor
  · intro k hx hk
    exact resolve_credential_truthy_key r k hx hk
  · intro hx
    refine ⟨?_, ?_, ?_⟩
    · intro hb
      simp [resolve_credential, hx, hb]
    · intro hb
      rw [resolve_credential_fallback_none r hx hb]
      exact hx
    · intro tok ha
      exact resolve_credential_fallback_bearer r tok hx ha

/-- C4 witness: a truthy `X-API-Key` wins over `Authorization`; a lowercase
"bearer " or a leading space yields no truthy credential; the exact
"Bearer " prefix is stripped. -/
theorem c4_credential_resolution_order_witness :
    resolve_credential ⟨"/mcp", some "k1", some "Bearer k2"⟩ = some "k1" ∧
    resolve_credential ⟨"/mcp", none, some "Bearer k2"⟩ = some "k2" ∧
    truthy (resolve_credential ⟨"/mcp", none, some "bearer k2"⟩) = false ∧
    truthy (resolve_credential ⟨"/mcp", none, some " Bearer k2"⟩) = false := by
  refine ⟨(c4_credential_resolution_order ⟨"/mcp", some "k1", some "Bearer k2"⟩).1
      "k1" rfl (by decide), ?_, ?_, ?_⟩
  · have h := ((c4_credential_resolution_order ⟨"/mcp", none, some "Bearer k2"⟩).2
      rfl).2.2 "k2" (by decide)
    exact h
  · exact ((c4_credential_resolution_order ⟨"/mcp", none, some "bearer k2"⟩).2
      rfl).2.1 (by decide)
  · exact ((c4_credential_resolution_order ⟨"/mcp", none, some " Bearer k2"⟩).2
      rfl).2.1 (by decide)

/-- C5: with no configured secret — `None` or the empty string — the gate is
inert: every request is forwarded, whatever path and credentials it has. -/
theorem c5_gate_inert_without_secret (cfg : ServerConfig) (r : Request)
    (h : cfg.api_key = none ∨ cfg.api_key = some "") :
    protect_mcp_endpoint cfg r = GateResult.forward := by
  have ht : truthy cfg.api_key = false := by
    rcases h with h | h <;> rw [h] <;> rfl
  show protect_with_path (effective_mcp_path cfg.mcp_path) cfg r = _
  apply protect_with_path_inactive
  simp [ht]

/-- C5 witness: with `api_key = None` and with `api_key = ""`, a
credential-less request to the protected path is forwarded. -/
theorem c5_gate_inert_without_secret_witness :
    protect_mcp_endpoint ⟨true, none, "/mcp"⟩ ⟨"/mcp/", none, none⟩ =
      GateResult.forward ∧
    protect_mcp_endpoint ⟨true, some "", "/mcp"⟩ ⟨"/mcp", none, some "Bearer x"⟩ =
      GateResult.forward :=
  ⟨c5_gate_inert_without_secret ⟨true, none, "/mcp"⟩ ⟨"/mcp/", none, none⟩ (Or.inl rfl),
   c5_gate_inert_without_secret ⟨true, some "", "/mcp"⟩ ⟨"/mcp", none, some "Bearer x"⟩
      (Or.inr rfl)⟩

/-- C6: the generated catalog is exactly the 13-entry list — for each of the
six tags, in the fixed source order, a RESOURCE entry for GET followed by a
TOOL entry for POST and DELETE — closed by a single EXCLUDE entry with no
tag restriction, which is last. -/
theorem c6_catalog_thirteen_entries :
    mcp_route_maps =
      [⟨some ["GET"], some ["content"], .RESOURCE⟩,
       ⟨some ["POST", "DELETE"], some ["content"], .TOOL⟩,
       ⟨some ["GET"], some ["filesystem"], .RESOURCE⟩,
       ⟨some ["POST", "DELETE"], some ["filesystem"], .TOOL⟩,
       ⟨some ["GET"], some ["resources"], .RESOURCE⟩,
       ⟨some ["POST", "DELETE"], some ["resources"], .TOOL⟩,
       ⟨some ["GET"], some ["search"], .RESOURCE⟩,
       ⟨some ["POST", "DELETE"], some ["search"], .TOOL⟩,
       ⟨some ["GET"], some ["sessions"], .RESOURCE⟩,
       ⟨some ["POST", "DELETE"], some ["sessions"], .TOOL⟩,
       ⟨some ["GET"], some ["relations"], .RESOURCE⟩,
       ⟨some ["POST", "DELETE"], some ["relations"], .TOOL⟩,
       ⟨none, none, .EXCLUDE⟩] ∧
    mcp_route_maps.length = 13 ∧
    mcp_route_maps.getLast? = some ⟨none, none, .EXCLUDE⟩ ∧
    (mcp_route_maps.filter (fun m => m.mcp_type = MCPType.EXCLUDE)).length = 1 :=
  ⟨rfl, rfl, rfl, rfl⟩

/-- C7: the catalog builder is deterministic — the loop relation assigns at
most one catalog to a tag list, the functional builder realizes it, and the
application catalog is the builder applied to the fixed tag list; the
builder takes no request-time input at all. -/
theorem c7_catalog_pure_deterministic :
    (∀ (ts : List String) (c₁ c₂ : List RouteMap),
        BuildsCatalog ts c₁ → BuildsCatalog ts c₂ → c₁ = c₂) ∧
    (∀ ts : List String, BuildsCatalog ts (build_route_maps ts)) ∧
    mcp_route_maps = build_route_maps mcp_tag_order :=
  ⟨builds_catalog_deterministic, builds_catalog_build, rfl⟩

/-- C7 witness: for the concrete tag list containing "content", any catalog
the loop relation produces equals the one the builder computes. -/
theorem c7_catalog_pure_deterministic_witness :
    [resource_entry "content", tool_entry "content", exclude_entry] =
      build_route_maps ["content"] :=
  c7_catalog_pure_deterministic.1 ["content"] _ _
    (BuildsCatalog.cons "content" [] [exclude_entry] BuildsCatalog.nil)
    (c7_catalog_pure_deterministic.2.1 ["content"])

/-- C8: the credential comparison is the modelled `hmac.compare_digest`: the
number of positions compared is independent of the presented credential
(it always equals the secret length, so no short-circuit on first mismatch
is possible), its verdict is exact string equality, and on an active gate
with a truthy resolved credential the middleware forwards exactly when that
comparison accepts. -/
theorem c8_constant_time_comparison :
    (∀ a₁ a₂ b : String,
        (compare_digest_trace a₁ b).1 = (compare_digest_trace a₂ b).1) ∧
    (∀ a b : String, (compare_digest_trace a b).1 = b.data.length) ∧
    (∀ a b : String, compare_digest a b = true ↔ a = b) ∧
    (∀ (cfg : ServerConfig) (r : Request) (key c : String),
        cfg.enable_mcp = true → cfg.api_key = some key → key ≠ "" →
        is_mcp_request (effective_mcp_path cfg.mcp_path) r.path = true →
        resolve_credential r = some c → c ≠ "" →
        (protect_mcp_endpoint cfg r = GateResult.forward ↔
          compare_digest c key = true)) := by
  refine ⟨?_, compare_digest_trace_fst, compare_digest_eq_true_iff, ?_⟩
  · intro a₁ a₂ b
    rw [compare_digest_trace_fst, compare_digest_trace_fst]
  · intro cfg r key c he hk hne hp hres hcne
    have hs := protect_active_some (effective_mcp_path cfg.mcp_path) cfg r key c
      he hk hne hp hres
    constructor
    · intro hf
      have hf2 : protect_with_path (effective_mcp_path cfg.mcp_path) cfg r =
          GateResult.forward := hf
      rw [hs] at hf2
      by_cases hck : c = key
      · exact (compare_digest_eq_true_iff c key).mpr hck
      · rw [if_pos (Or.inr hck)] at hf2
        exact absurd hf2 (fun hx => GateResult.noConfusion hx)
    · intro hcd
      have hck := (compare_digest_eq_true_iff c key).mp hcd
      have hnot : ¬(c = "" ∨ c ≠ key) := by
        rintro (h1 | h2)
        · exact hcne h1
        · exact h2 hck
      show protect_with_path (effective_mcp_path cfg.mcp_path) cfg r = _
      rw [hs, if_neg hnot]

/-- C8 witness: two credentials of very different lengths are compared
against "test-key" in the same number of steps, and the gate forwards the
matching credential exactly because the comparison accepts it. -/
theorem c8_constant_time_comparison_witness :
    (compare_digest_trace "totally-wrong-credential" "test-key").1 =
      (compare_digest_trace "x" "test-key").1 ∧
    (protect_mcp_endpoint ⟨true, some "test-key", "/mcp"⟩
        ⟨"/mcp", some "test-key", none⟩ = GateResult.forward ↔
      compare_digest "test-key" "test-key" = true) :=
  ⟨c8_constant_time_comparison.1 "totally-wrong-credential" "x" "test-key",
   c8_constant_time_comparison.2.2.2 ⟨true, some "test-key", "/mcp"⟩
      ⟨"/mcp", some "test-key", none⟩ "test-key" "test-key" rfl rfl (by decide)
      (by decide) (by decide) (by decide)⟩

/-- C9: a present-but-empty `X-API-Key` header is treated by the gate exactly
as an absent one — the gate result is unchanged by deleting the header — and
when the fallback also yields no credential or a wrong one, an active gate
rejects the request with 401. -/
theorem c9_empty_x_api_key_as_absent (cfg : ServerConfig) (r : Request)
    (hx : r.x_api_key = some "") :
    protect_mcp_endpoint cfg r =
      protect_mcp_endpoint cfg ⟨r.path, none, r.authorization⟩ ∧
    (∀ key, cfg.enable_mcp = true → cfg.api_key = some key → key ≠ "" →
      is_mcp_request (effective_mcp_path cfg.mcp_path) r.path = true →
      (∀ c, resolve_credential ⟨r.path, none, r.authorization⟩ = some c → c ≠ key) →
      protect_mcp_endpoint cfg r = GateResult.reject 401 unauthenticated_body) := by
  have hq := resolve_credential_drop_empty r hx
  constructor
  · show protect_with_path (effective_mcp_path cfg.mcp_path) cfg r =
      protect_with_path (effective_mcp_path cfg.mcp_path) cfg
        ⟨r.path, none, r.authorization⟩
    unfold protect_with_path
    rw [hq.1, hq.2]
  · intro key he hk hne hp hc
    show protect_with_path (effective_mcp_path cfg.mcp_path) cfg r = _
    rcases hcr : resolve_credential r with _ | c
    · exact protect_active_none _ cfg r key he hk hne hp hcr
    · have hor : c = "" ∨ c ≠ key := by
        by_cases hce : c = ""
        · exact Or.inl hce
        · refine Or.inr ?_
          rcases hcr2 : resolve_credential ⟨r.path, none, r.authorization⟩ with _ | d
          · have hq1 := hq.1
            rw [hcr, hcr2] at hq1
            have hfalse : truthy (some c) = false := hq1.trans rfl
            simp [truthy, hce] at hfalse
          · have hq2 := hq.2
            rw [hcr, hcr2] at hq2
            have hcd : c = d := by simpa using hq2
            rw [hcd]
            exact hc d hcr2
      rw [protect_active_some _ cfg r key c he hk hne hp hcr, if_pos hor]

/-- C9 witness: an empty `X-API-Key` together with a wrong bearer token is
rejected with 401 on the protected path. -/
theorem c9_empty_x_api_key_as_absent_witness :
    protect_mcp_endpoint ⟨true, some "test-key", "/mcp"⟩
        ⟨"/mcp", some "", some "Bearer nope"⟩ =
      GateResult.reject 401 unauthenticated_body := by
  have h := c9_empty_x_api_key_as_absent ⟨true, some "test-key", "/mcp"⟩
    ⟨"/mcp", some "", some "Bearer nope"⟩ rfl
  refine h.2 "test-key" rfl rfl (by decide) (by decide) ?_
  intro c hcc
  have hcc2 : resolve_credential ⟨"/mcp", none, some "Bearer nope"⟩ = some c := hcc
  have hres : resolve_credential ⟨"/mcp", none, some "Bearer nope"⟩ = some "nope" := by
    decide
  rw [hres] at hcc2
  cases hcc2
  decide

/-- C10: the effective protected mount path is the configured `mcp_path` with
all trailing slashes stripped — the stripped result never ends in "/" and
differs from the original only by a trailing run of slashes — with "/mcp"
substituted when stripping leaves the empty string; the middleware applies
this one effective path to every request. -/
theorem c10_effective_mount_path (cfg : ServerConfig) (r : Request) :
    (rstrip_slashes cfg.mcp_path).data.getLast? ≠ some '/' ∧
    (∃ n, cfg.mcp_path = rstrip_slashes cfg.mcp_path ++
      String.mk (List.replicate n '/')) ∧
    (rstrip_slashes cfg.mcp_path = "" → effective_mcp_path cfg.mcp_path = "/mcp") ∧
    (rstrip_slashes cfg.mcp_path ≠ "" →
      effective_mcp_path cfg.mcp_path = rstrip_slashes cfg.mcp_path) ∧
    protect_mcp_endpoint cfg r = protect_with_path (effective_mcp_path cfg.mcp_path) cfg r :=
  ⟨rstrip_slashes_no_trailing cfg.mcp_path, rstrip_slashes_spec cfg.mcp_path,
   effective_mcp_path_of_empty cfg.mcp_path, effective_mcp_path_of_ne cfg.mcp_path, rfl⟩

/-- C10 witness: "/mcp///" strips to "/mcp" and is used as the effective
path; a path of only slashes falls back to "/mcp". -/
theorem c10_effective_mount_path_witness :
    effective_mcp_path "/mcp///" = rstrip_slashes "/mcp///" ∧
    effective_mcp_path "///" = "/mcp" ∧
    rstrip_slashes "/mcp///" = "/mcp" :=
  ⟨(c10_effective_mount_path ⟨true, some "k", "/mcp///"⟩ ⟨"/x", none, none⟩).2.2.2.1
      (by decide),
   (c10_effective_mount_path ⟨true, some "k", "///"⟩ ⟨"/x", none, none⟩).2.2.1
      (by decide),
   by decide⟩

end OpenViking
